import Mathlib

/-!
# Verification of the S3 consistency harness

A shallow embedding of `src/s3consistency.py` (together with `src/config.py`,
which only loads credentials and plays no algorithmic role).

Modelling choices, stated once:

* The boto3 S3 client is abstracted as a `Gateway σ`: four operations
  (`put_object`, `get_object`, `delete_object`, `list_objects_v2`) acting on an
  abstract service state `σ`.  Each operation returns a typed outcome together
  with the successor state; `Except.error GErr.noSuchKey` models the
  `client.exceptions.NoSuchKey` exception and `Except.error GErr.fault` models
  every other exception a call can raise.  Python exceptions that a probe does
  not catch are modelled by `Except.error` results that the probe propagates.
* Object bodies: `bytes([0] * chunk_size)` is modelled as
  `List.replicate chunk_size.toNat 0`; only its length is ever inspected.
  `chunk_size` stays an `Int` because the CLI (`argparse`, `type=int`) performs
  no sign validation; `bytes([0] * n)` is empty for `n < 0`, matching `.toNat`.
* Fresh keys: `str(uuid.uuid4())` is modelled by a harness-side counter that is
  threaded through every probe (the pair `Nat × σ`); `freshKey n` yields a key
  never produced twice, which is the only property of a UUID the program uses.
* Concurrency: `run_test` starts `threads` worker threads over the shared
  client and joins them all.  Workers are composed sequentially over the
  abstract gateway state.  Because the gateway is an arbitrary response
  function, every interleaved execution of the real program corresponds to
  some gateway behaviour of this sequential model, so counting properties
  proved for all gateways cover all interleavings.
* A Python thread that dies with an uncaught exception is modelled by a worker
  result `Except.error e`: `run_test` appends nothing to `errors` for such a
  worker, exactly as in the source.
* `err_pct` is computed in `ℚ`.  Python float division by zero raises
  `ZeroDivisionError`; in `ℚ` the quotient is `0`.  Theorems that speak about
  a completed `run_test` therefore restrict to configurations whose
  denominator `iterations * len(threads)` is nonzero where that matters.
-/

namespace S3Consistency

/-- Typed gateway outcomes: the distinguished `NoSuchKey` exception and any
other failure (network error, throttling, auth failure, ...). -/
inductive GErr where
  | noSuchKey : GErr
  | fault : GErr
  deriving DecidableEq, Repr

/-- The S3 client abstraction: each call consumes and produces a service state
`σ` and yields either a value or a `GErr`.  `put_object` and `delete_object`
return no payload; `get_object` returns the body; `list_objects_v2` returns
the listed keys (an absent `Contents` field is the empty list). -/
structure Gateway (σ : Type) where
  put_object : σ → String → List Nat → Except GErr Unit × σ
  get_object : σ → String → Except GErr (List Nat) × σ
  delete_object : σ → String → Except GErr Unit × σ
  list_objects_v2 : σ → Except GErr (List String) × σ

/-- Harness-visible state: the fresh-key counter paired with the gateway
state. -/
abbrev HState (σ : Type) := Nat × σ

/-- The n-th fresh key (stands for `str(uuid.uuid4())`). -/
def freshKey (n : Nat) : String := "uuid-" ++ toString n

/-- `bytes([0] * chunk_size)`. -/
def payloadBytes (chunkSize : Int) : List Nat := List.replicate chunkSize.toNat 0

variable {σ : Type}

/-- `create_random_file(client, bucket, chunk_size, key=None)`: choose a fresh
key when none is given, `put_object` an all-zero body of `chunk_size` bytes,
return the key.  A failing put propagates (the Python call raises). -/
def create_random_file (gw : Gateway σ) (chunkSize : Int) (key : Option String) :
    HState σ → Except GErr String × HState σ
  | (ctr, s) =>
    match key with
    | none =>
      match gw.put_object s (freshKey ctr) (payloadBytes chunkSize) with
      | (Except.ok _, s2) => (Except.ok (freshKey ctr), (ctr + 1, s2))
      | (Except.error e, s2) => (Except.error e, (ctr + 1, s2))
    | some k =>
      match gw.put_object s k (payloadBytes chunkSize) with
      | (Except.ok _, s2) => (Except.ok k, (ctr, s2))
      | (Except.error e, s2) => (Except.error e, (ctr, s2))

/-- One iteration of the `for _ in range(iterations)` body of
`read_after_delete`: put a fresh key, delete it, then get it; the get
succeeding counts one violation, `NoSuchKey` counts nothing, any other
exception propagates.  `count` is the accumulated violation count. -/
def read_after_delete_iter (gw : Gateway σ) (chunkSize : Int) (count : Nat)
    (st : HState σ) : Except GErr Nat × HState σ :=
  match create_random_file gw chunkSize none st with
  | (Except.error e, st1) => (Except.error e, st1)
  | (Except.ok key, st1) =>
    match gw.delete_object st1.2 key with
    | (Except.error e, s2) => (Except.error e, (st1.1, s2))
    | (Except.ok _, s2) =>
      match gw.get_object s2 key with
      | (Except.ok _, s3) => (Except.ok (count + 1), (st1.1, s3))
      | (Except.error GErr.noSuchKey, s3) => (Except.ok count, (st1.1, s3))
      | (Except.error GErr.fault, s3) => (Except.error GErr.fault, (st1.1, s3))

/-- One iteration of `read_after_create`: put a fresh key, get it (`NoSuchKey`
counts one violation, any other exception propagates), then delete it. -/
def read_after_create_iter (gw : Gateway σ) (chunkSize : Int) (count : Nat)
    (st : HState σ) : Except GErr Nat × HState σ :=
  match create_random_file gw chunkSize none st with
  | (Except.error e, st1) => (Except.error e, st1)
  | (Except.ok key, st1) =>
    match gw.get_object st1.2 key with
    | (Except.error GErr.fault, s2) => (Except.error GErr.fault, (st1.1, s2))
    | (Except.ok _, s2) =>
      match gw.delete_object s2 key with
      | (Except.error e, s3) => (Except.error e, (st1.1, s3))
      | (Except.ok _, s3) => (Except.ok count, (st1.1, s3))
    | (Except.error GErr.noSuchKey, s2) =>
      match gw.delete_object s2 key with
      | (Except.error e, s3) => (Except.error e, (st1.1, s3))
      | (Except.ok _, s3) => (Except.ok (count + 1), (st1.1, s3))

/-- One iteration of `read_after_overwrite`: put a fresh key with
`chunk_size` bytes, overwrite it with `chunk_size + 1` bytes, get it (this
get has no `try`, so every exception — `NoSuchKey` included — propagates), a
body length other than `chunk_size + 1` counts one violation, then delete. -/
def read_after_overwrite_iter (gw : Gateway σ) (chunkSize : Int) (count : Nat)
    (st : HState σ) : Except GErr Nat × HState σ :=
  match create_random_file gw chunkSize none st with
  | (Except.error e, st1) => (Except.error e, st1)
  | (Except.ok key, st1) =>
    match create_random_file gw (chunkSize + 1) (some key) st1 with
    | (Except.error e, st2) => (Except.error e, st2)
    | (Except.ok _, st2) =>
      match gw.get_object st2.2 key with
      | (Except.error e, s3) => (Except.error e, (st2.1, s3))
      | (Except.ok body, s3) =>
        match gw.delete_object s3 key with
        | (Except.error e, s4) => (Except.error e, (st2.1, s4))
        | (Except.ok _, s4) =>
          if (body.length : Int) ≠ chunkSize + 1 then
            (Except.ok (count + 1), (st2.1, s4))
          else
            (Except.ok count, (st2.1, s4))

/-- One iteration of `list_after_create`: put a fresh key, list (any exception
propagates), the key being absent from the listing counts one violation, then
delete. -/
def list_after_create_iter (gw : Gateway σ) (chunkSize : Int) (count : Nat)
    (st : HState σ) : Except GErr Nat × HState σ :=
  match create_random_file gw chunkSize none st with
  | (Except.error e, st1) => (Except.error e, st1)
  | (Except.ok key, st1) =>
    match gw.list_objects_v2 st1.2 with
    | (Except.error e, s2) => (Except.error e, (st1.1, s2))
    | (Except.ok listing, s2) =>
      match gw.delete_object s2 key with
      | (Except.error e, s3) => (Except.error e, (st1.1, s3))
      | (Except.ok _, s3) =>
        if key ∈ listing then (Except.ok count, (st1.1, s3))
        else (Except.ok (count + 1), (st1.1, s3))

/-- One iteration of `list_after_delete`: put a fresh key, delete it, list
(any exception propagates); the key still appearing in the listing counts one
violation.  No further cleanup call is made. -/
def list_after_delete_iter (gw : Gateway σ) (chunkSize : Int) (count : Nat)
    (st : HState σ) : Except GErr Nat × HState σ :=
  match create_random_file gw chunkSize none st with
  | (Except.error e, st1) => (Except.error e, st1)
  | (Except.ok key, st1) =>
    match gw.delete_object st1.2 key with
    | (Except.error e, s2) => (Except.error e, (st1.1, s2))
    | (Except.ok _, s2) =>
      match gw.list_objects_v2 s2 with
      | (Except.error e, s3) => (Except.error e, (st1.1, s3))
      | (Except.ok listing, s3) =>
        if key ∈ listing then (Except.ok (count + 1), (st1.1, s3))
        else (Except.ok count, (st1.1, s3))

/-- The shared `for _ in range(iterations)` shape of every probe: run `step`
`n` times threading the accumulated violation `count`; a step that raises
aborts the loop and the count is lost with it. -/
def probe_loop (step : Nat → HState σ → Except GErr Nat × HState σ) :
    Nat → Nat → HState σ → Except GErr Nat × HState σ
  | 0, count, st => (Except.ok count, st)
  | n + 1, count, st =>
    match step count st with
    | (Except.ok c, st1) => probe_loop step n c st1
    | (Except.error e, st1) => (Except.error e, st1)

/-- `read_after_delete(client, bucket, iterations, chunk_size)`. -/
def read_after_delete (gw : Gateway σ) (iterations : Nat) (chunkSize : Int)
    (st : HState σ) : Except GErr Nat × HState σ :=
  probe_loop (read_after_delete_iter gw chunkSize) iterations 0 st

/-- `read_after_create(client, bucket, iterations, chunk_size)`. -/
def read_after_create (gw : Gateway σ) (iterations : Nat) (chunkSize : Int)
    (st : HState σ) : Except GErr Nat × HState σ :=
  probe_loop (read_after_create_iter gw chunkSize) iterations 0 st

/-- `read_after_overwrite(client, bucket, iterations, chunk_size)`. -/
def read_after_overwrite (gw : Gateway σ) (iterations : Nat) (chunkSize : Int)
    (st : HState σ) : Except GErr Nat × HState σ :=
  probe_loop (read_after_overwrite_iter gw chunkSize) iterations 0 st

/-- `list_after_create(client, bucket, iterations, chunk_size)`. -/
def list_after_create (gw : Gateway σ) (iterations : Nat) (chunkSize : Int)
    (st : HState σ) : Except GErr Nat × HState σ :=
  probe_loop (list_after_create_iter gw chunkSize) iterations 0 st

/-- `list_after_delete(client, bucket, iterations, chunk_size)`. -/
def list_after_delete (gw : Gateway σ) (iterations : Nat) (chunkSize : Int)
    (st : HState σ) : Except GErr Nat × HState σ :=
  probe_loop (list_after_delete_iter gw chunkSize) iterations 0 st

/-- The result row logged by `run_test` (and re-derived identically by the
summary loop in `main`): `iterations * len(threads)`, `err_count = sum(errors)`
and `err_pct = err_count / (iterations * len(threads)) * 100`. -/
structure RunReport where
  attempted : Int
  err_count : Nat
  err_pct : ℚ
  deriving DecidableEq, Repr

/-- The successful-worker filter: `errors.append(fn(...))` happens only when
`fn` returned; a worker whose probe raised appends nothing. -/
def ok_count : Except GErr Nat → Option Nat
  | Except.ok c => some c
  | Except.error _ => none

/-- The `threads` worker loops of `run_test`, composed over the shared client
state; the list collects each worker's outcome in order. -/
def run_workers (fn : HState σ → Except GErr Nat × HState σ) :
    Nat → HState σ → List (Except GErr Nat) × HState σ
  | 0, st => ([], st)
  | t + 1, st =>
    let p := fn st
    let q := run_workers fn t p.2
    (p.1 :: q.1, q.2)

/-- `run_test(client, bucket, fn, iterations, threads, chunk_size)`: start
`threads` workers each running `fn` for `iterations` iterations, join them,
sum the counts of the workers that completed, and report
`iterations * len(threads)`, the sum, and the percentage.  `iterations` and
`threads` are the raw CLI integers: `range(n)` of a negative `n` is empty,
hence `.toNat` on both loop bounds, while the logged `attempted` keeps the raw
`iterations` factor exactly as `iterations * len(threads)` does. -/
def run_test (gw : Gateway σ)
    (fn : Gateway σ → Nat → Int → HState σ → Except GErr Nat × HState σ)
    (iterations threads chunkSize : Int) (st : HState σ) :
    RunReport × HState σ :=
  let p := run_workers (fn gw iterations.toNat chunkSize) threads.toNat st
  let err_count := (p.1.filterMap ok_count).sum
  let attempted : Int := iterations * (threads.toNat : Int)
  ({ attempted := attempted, err_count := err_count,
     err_pct := ((err_count : ℚ) / (attempted : ℚ)) * 100 }, p.2)

/-- The deletion loop of `clean_up`: delete every listed key in order,
counting the `DELETE object` log lines; a failing delete propagates. -/
def delete_all (gw : Gateway σ) : List String → σ → Except GErr Nat × σ
  | [], s => (Except.ok 0, s)
  | k :: rest, s =>
    match gw.delete_object s k with
    | (Except.error e, s1) => (Except.error e, s1)
    | (Except.ok _, s1) =>
      match delete_all gw rest s1 with
      | (Except.ok n, s2) => (Except.ok (n + 1), s2)
      | (Except.error e, s2) => (Except.error e, s2)

/-- `clean_up(client, bucket)`: list the bucket once and delete each listed
object unconditionally; returns how many deletes were issued. -/
def clean_up (gw : Gateway σ) (s : σ) : Except GErr Nat × σ :=
  match gw.list_objects_v2 s with
  | (Except.error e, s1) => (Except.error e, s1)
  | (Except.ok keys, s1) => delete_all gw keys s1

/-- The parsed CLI arguments that reach the core (`endpoint`, `region` and
`bucket` only address the gateway and are absorbed into `Gateway`). -/
structure Args where
  iterations : Int
  threads : Int
  chunkSize : Int
  clean : Bool

/-- `5 * 1024 * 1024 * 1024`, the hard chunk-size ceiling in `main`. -/
def max_chunk_size : Int := 5 * 1024 * 1024 * 1024

/-- The clamp in `main`: `if args.chunk_size > max_chunk_size:
args.chunk_size = max_chunk_size`. -/
def clamp_chunk_size (c : Int) : Int :=
  if max_chunk_size < c then max_chunk_size else c

/-- The five `run_test` calls of `main`, in source order, each threading the
shared client state into the next, paired with the test names of
`test_results`. -/
def run_campaign (gw : Gateway σ) (iterations threads chunkSize : Int)
    (st : HState σ) : List (String × RunReport) × HState σ :=
  let r1 := run_test gw read_after_delete iterations threads chunkSize st
  let r2 := run_test gw read_after_create iterations threads chunkSize r1.2
  let r3 := run_test gw read_after_overwrite iterations threads chunkSize r2.2
  let r4 := run_test gw list_after_create iterations threads chunkSize r3.2
  let r5 := run_test gw list_after_delete iterations threads chunkSize r4.2
  ([("read_after_delete", r1.1), ("read_after_create", r2.1),
    ("read_after_overwrite", r3.1), ("list_after_create", r4.1),
    ("list_after_delete", r5.1)], r5.2)

/-- `main()` after argument parsing: clamp the chunk size, then either run the
clean mode (`Except.ok none`, or the propagated error if a gateway call in
`clean_up` raises) or run the five-probe campaign and report its rows
(`Except.ok (some rows)`).  No validation of `iterations` or `threads` is
performed anywhere on this path. -/
def main_run (gw : Gateway σ) (args : Args) (st : HState σ) :
    Except GErr (Option (List (String × RunReport))) × HState σ :=
  let c := clamp_chunk_size args.chunkSize
  if args.clean then
    match clean_up gw st.2 with
    | (Except.ok _, s1) => (Except.ok none, (st.1, s1))
    | (Except.error e, s1) => (Except.error e, (st.1, s1))
  else
    let r := run_campaign gw args.iterations args.threads c st
    (Except.ok (some r.1), r.2)

/-! ## Concrete gateways

The mock gateways the spec's testable properties quantify over: a bucket is a
key-to-body association list. -/

/-- Bucket contents: one entry per stored object. -/
abbrev Store := List (String × List Nat)

/-- Body stored under a key, first match. -/
def storeLookup : Store → String → Option (List Nat)
  | [], _ => none
  | (k1, v) :: rest, k => if k1 = k then some v else storeLookup rest k

/-- Remove every entry stored under a key. -/
def storeErase : Store → String → Store
  | [], _ => []
  | (k1, v) :: rest, k =>
    if k1 = k then storeErase rest k else (k1, v) :: storeErase rest k

/-- Overwrite a key with a body. -/
def storePut (s : Store) (k : String) (v : List Nat) : Store :=
  (k, v) :: storeErase s k

/-- The listed keys of a bucket. -/
def storeKeys (s : Store) : List String := s.map Prod.fst

/-- A fully consistent gateway: every get and list reflects the immediately
preceding put/delete; a get of an absent key raises `NoSuchKey`. -/
def consistentGW : Gateway Store where
  put_object s k v := (Except.ok (), storePut s k v)
  get_object s k :=
    (match storeLookup s k with
     | some v => Except.ok v
     | none => Except.error GErr.noSuchKey, s)
  delete_object s k := (Except.ok (), storeErase s k)
  list_objects_v2 s := (Except.ok (storeKeys s), s)

/-- A maximally stale gateway: puts land, but a delete is acknowledged without
effect, so a get after a delete still succeeds with the last-written body and
listings still show the key. -/
def staleGW : Gateway Store where
  put_object s k v := (Except.ok (), storePut s k v)
  get_object s k :=
    (match storeLookup s k with
     | some v => Except.ok v
     | none => Except.error GErr.noSuchKey, s)
  delete_object s _ := (Except.ok (), s)
  list_objects_v2 s := (Except.ok (storeKeys s), s)

/-- A gateway whose every call raises a non-`NoSuchKey` fault (e.g. the
network is down). -/
def alwaysFaultGW : Gateway Unit where
  put_object s _ _ := (Except.error GErr.fault, s)
  get_object s _ := (Except.error GErr.fault, s)
  delete_object s _ := (Except.error GErr.fault, s)
  list_objects_v2 s := (Except.error GErr.fault, s)

/-- The calls a probe issues, for frame reasoning: which operations touched
the bucket, in order.  A put records only the body length. -/
inductive Op where
  | putOp (k : String) (n : Nat) : Op
  | getOp (k : String) : Op
  | deleteOp (k : String) : Op
  | listOp : Op
  deriving DecidableEq, Repr

/-- Wrap a gateway so that the state also records the trace of issued calls. -/
def traced (gw : Gateway σ) : Gateway (List Op × σ) where
  put_object st k v :=
    let r := gw.put_object st.2 k v
    (r.1, (st.1 ++ [Op.putOp k v.length], r.2))
  get_object st k :=
    let r := gw.get_object st.2 k
    (r.1, (st.1 ++ [Op.getOp k], r.2))
  delete_object st k :=
    let r := gw.delete_object st.2 k
    (r.1, (st.1 ++ [Op.deleteOp k], r.2))
  list_objects_v2 st :=
    let r := gw.list_objects_v2 st.2
    (r.1, (st.1 ++ [Op.listOp], r.2))

/-! ## Store lemmas -/

@[simp]
theorem storeKeys_nil : storeKeys [] = [] := rfl

@[simp]
theorem storeKeys_cons (p : String × List Nat) (rest : Store) :
    storeKeys (p :: rest) = p.1 :: storeKeys rest := rfl

@[simp]
theorem storeLookup_storePut (s : Store) (k : String) (v : List Nat) :
    storeLookup (storePut s k v) k = some v := by
  simp [storePut, storeLookup]

@[simp]
theorem storeErase_storePut (s : Store) (k : String) (v : List Nat) :
    storeErase (storePut s k v) k = storeErase s k := by
  simp [storePut, storeErase]
  induction s with
  | nil => simp [storeErase]
  | cons p rest ih =>
    by_cases h : p.1 = k <;> simp [storeErase, h, ih]

theorem storeErase_of_not_mem {s : Store} {k : String}
    (h : k ∉ storeKeys s) : storeErase s k = s := by
  induction s with
  | nil => rfl
  | cons p rest ih =>
    rw [storeKeys_cons, List.mem_cons] at h
    push_neg at h
    simp [storeErase, Ne.symm h.1, ih h.2]

theorem storeLookup_eq_none_of_not_mem {s : Store} {k : String}
    (h : k ∉ storeKeys s) : storeLookup s k = none := by
  induction s with
  | nil => rfl
  | cons p rest ih =>
    rw [storeKeys_cons, List.mem_cons] at h
    push_neg at h
    simp [storeLookup, Ne.symm h.1, ih h.2]

theorem mem_storeKeys_storePut (s : Store) (k : String) (v : List Nat) :
    k ∈ storeKeys (storePut s k v) := by
  simp [storePut]

theorem mem_storeKeys_of_mem_erase {s : Store} {k a : String}
    (h : a ∈ storeKeys (storeErase s k)) : a ∈ storeKeys s := by
  induction s with
  | nil => simp [storeErase] at h
  | cons p rest ih =>
    by_cases hp : p.1 = k
    · rw [show storeErase (p :: rest) k = storeErase rest k by
        simp [storeErase, hp]] at h
      simp only [storeKeys_cons, List.mem_cons]
      exact Or.inr (ih h)
    · rw [show storeErase (p :: rest) k = p :: storeErase rest k by
        simp [storeErase, hp]] at h
      rw [storeKeys_cons, List.mem_cons] at h ⊢
      rcases h with h | h
      · exact Or.inl h
      · exact Or.inr (ih h)

/-- No key generated by the harness from counter value `ctr` onward is already
present in the bucket.  This is the uniqueness invariant a fresh UUID buys. -/
def fresh_ok (ctr : Nat) (s : Store) : Prop :=
  ∀ m, ctr ≤ m → freshKey m ∉ storeKeys s

theorem fresh_ok.head {ctr : Nat} {s : Store} (h : fresh_ok ctr s) :
    freshKey ctr ∉ storeKeys s :=
  h ctr le_rfl

theorem fresh_ok.add {ctr : Nat} {s : Store} (h : fresh_ok ctr s) (n : Nat) :
    fresh_ok (ctr + n) s :=
  fun m hm => h m (le_trans (Nat.le_add_right ctr n) hm)

theorem fresh_ok.succ {ctr : Nat} {s : Store} (h : fresh_ok ctr s) :
    fresh_ok (ctr + 1) s :=
  h.add 1

theorem fresh_ok_nil (ctr : Nat) : fresh_ok ctr [] := by
  intro m _
  simp [storeKeys]

/-! ## The probes against the consistent gateway

Each iteration leaves the bucket exactly as it found it, advances the key
counter by one, and counts no violation. -/

theorem read_after_delete_iter_consistent (chunkSize : Int) (count ctr : Nat)
    {s : Store} (h : fresh_ok ctr s) :
    read_after_delete_iter consistentGW chunkSize count (ctr, s) =
      (Except.ok count, (ctr + 1, s)) := by
  simp [read_after_delete_iter, create_random_file, consistentGW,
    storeErase_of_not_mem h.head, storeLookup_eq_none_of_not_mem h.head]

theorem read_after_create_iter_consistent (chunkSize : Int) (count ctr : Nat)
    {s : Store} (h : fresh_ok ctr s) :
    read_after_create_iter consistentGW chunkSize count (ctr, s) =
      (Except.ok count, (ctr + 1, s)) := by
  simp [read_after_create_iter, create_random_file, consistentGW,
    storeErase_of_not_mem h.head]

theorem read_after_overwrite_iter_consistent (chunkSize : Int)
    (hch : 0 ≤ chunkSize) (count ctr : Nat) {s : Store} (h : fresh_ok ctr s) :
    read_after_overwrite_iter consistentGW chunkSize count (ctr, s) =
      (Except.ok count, (ctr + 1, s)) := by
  have hlen : ((payloadBytes (chunkSize + 1)).length : Int) = chunkSize + 1 := by
    simp [payloadBytes]
    omega
  simp [read_after_overwrite_iter, create_random_file, consistentGW, hlen,
    storeErase_of_not_mem h.head]

theorem list_after_create_iter_consistent (chunkSize : Int) (count ctr : Nat)
    {s : Store} (h : fresh_ok ctr s) :
    list_after_create_iter consistentGW chunkSize count (ctr, s) =
      (Except.ok count, (ctr + 1, s)) := by
  simp [list_after_create_iter, create_random_file, consistentGW,
    storeErase_of_not_mem h.head, mem_storeKeys_storePut]

theorem list_after_delete_iter_consistent (chunkSize : Int) (count ctr : Nat)
    {s : Store} (h : fresh_ok ctr s) :
    list_after_delete_iter consistentGW chunkSize count (ctr, s) =
      (Except.ok count, (ctr + 1, s)) := by
  simp [list_after_delete_iter, create_random_file, consistentGW,
    storeErase_of_not_mem h.head, storeLookup_eq_none_of_not_mem h.head, h.head]

/-! ## Generic lemmas about `probe_loop`, `run_workers` and aggregation -/

theorem probe_loop_invariant {σ : Type} {P : Nat → σ → Prop}
    (step : Nat → HState σ → Except GErr Nat × HState σ)
    (hstep : ∀ count ctr s, P ctr s →
      step count (ctr, s) = (Except.ok count, (ctr + 1, s)))
    (hP : ∀ ctr s, P ctr s → P (ctr + 1) s) :
    ∀ (n count ctr : Nat) (s : σ), P ctr s →
      probe_loop step n count (ctr, s) = (Except.ok count, (ctr + n, s)) := by
  intro n
  induction n with
  | zero =>
    intro count ctr s _
    simp [probe_loop]
  | succ n ih =>
    intro count ctr s h
    have h1 := hstep count ctr s h
    have h2 := ih count (ctr + 1) s (hP ctr s h)
    have h3 : ctr + 1 + n = ctr + (n + 1) := by omega
    rw [h3] at h2
    simp [probe_loop, h1, h2]

theorem probe_loop_incr {σ : Type}
    (step : Nat → HState σ → Except GErr Nat × HState σ)
    (hstep : ∀ count st, ∃ st2, step count st = (Except.ok (count + 1), st2)) :
    ∀ (n count : Nat) (st : HState σ), ∃ st2,
      probe_loop step n count st = (Except.ok (count + n), st2) := by
  intro n
  induction n with
  | zero =>
    intro count st
    exact ⟨st, by simp [probe_loop]⟩
  | succ n ih =>
    intro count st
    obtain ⟨st1, h1⟩ := hstep count st
    obtain ⟨st2, h2⟩ := ih (count + 1) st1
    have h3 : count + 1 + n = count + (n + 1) := by omega
    rw [h3] at h2
    exact ⟨st2, by simp [probe_loop, h1, h2]⟩

theorem probe_loop_le {σ : Type}
    (step : Nat → HState σ → Except GErr Nat × HState σ)
    (hstep : ∀ count st c st2,
      step count st = (Except.ok c, st2) → c ≤ count + 1) :
    ∀ (n count : Nat) (st : HState σ) (c : Nat) (st2 : HState σ),
      probe_loop step n count st = (Except.ok c, st2) → c ≤ count + n := by
  intro n
  induction n with
  | zero =>
    intro count st c st2 h
    simp [probe_loop] at h
    omega
  | succ n ih =>
    intro count st c st2 h
    rcases h1 : step count st with ⟨r, st1⟩
    rcases r with e | c1
    · rw [probe_loop, h1] at h
      simp at h
    · rw [probe_loop, h1] at h
      have := ih c1 st1 c st2 h
      have := hstep count st c1 st1 h1
      omega

theorem probe_loop_error {σ : Type}
    (step : Nat → HState σ → Except GErr Nat × HState σ)
    (n count : Nat) (st st1 : HState σ) (e : GErr)
    (h : step count st = (Except.error e, st1)) :
    probe_loop step (n + 1) count st = (Except.error e, st1) := by
  simp [probe_loop, h]

theorem run_workers_invariant {σ : Type} {Q : HState σ → Prop} {B : Nat}
    (f : HState σ → Except GErr Nat × HState σ)
    (hf : ∀ st, Q st → (f st).1 = Except.ok B ∧ Q (f st).2) :
    ∀ (t : Nat) (st : HState σ), Q st →
      (run_workers f t st).1 = List.replicate t (Except.ok B) ∧
        Q (run_workers f t st).2 := by
  intro t
  induction t with
  | zero =>
    intro st h
    exact ⟨by simp [run_workers], h⟩
  | succ t ih =>
    intro st h
    obtain ⟨h1, h2⟩ := hf st h
    obtain ⟨h3, h4⟩ := ih (f st).2 h2
    exact ⟨by simp [run_workers, List.replicate_succ, h1, h3], by
      simpa [run_workers] using h4⟩

theorem run_workers_length {σ : Type}
    (f : HState σ → Except GErr Nat × HState σ) :
    ∀ (t : Nat) (st : HState σ), (run_workers f t st).1.length = t := by
  intro t
  induction t with
  | zero => intro st; simp [run_workers]
  | succ t ih => intro st; simp [run_workers, ih]

theorem run_workers_ok_le {σ : Type} {B : Nat}
    (f : HState σ → Except GErr Nat × HState σ)
    (hf : ∀ st c st2, f st = (Except.ok c, st2) → c ≤ B) :
    ∀ (t : Nat) (st : HState σ) (r : Except GErr Nat),
      r ∈ (run_workers f t st).1 → ∀ c, r = Except.ok c → c ≤ B := by
  intro t
  induction t with
  | zero =>
    intro st r hr
    simp [run_workers] at hr
  | succ t ih =>
    intro st r hr c hc
    simp only [run_workers, List.mem_cons] at hr
    rcases hr with hr | hr
    · apply hf st c (f st).2
      have h1 : (f st).1 = Except.ok c := by rw [← hr, hc]
      calc f st = ((f st).1, (f st).2) := rfl
        _ = (Except.ok c, (f st).2) := by rw [h1]
    · exact ih (f st).2 r hr c hc

theorem filterMap_ok_replicate (t B : Nat) :
    (List.replicate t (Except.ok B : Except GErr Nat)).filterMap ok_count =
      List.replicate t B := by
  induction t with
  | zero => rfl
  | succ t ih => simp [List.replicate_succ, ok_count, ih]

theorem sum_filterMap_ok_le {B : Nat} :
    ∀ rs : List (Except GErr Nat),
      (∀ r ∈ rs, ∀ c, r = Except.ok c → c ≤ B) →
      (rs.filterMap ok_count).sum ≤ rs.length * B := by
  intro rs
  induction rs with
  | nil =>
    intro _
    simp
  | cons r rest ih =>
    intro h
    have hrest := ih fun r2 hr2 => h r2 (List.mem_cons_of_mem r hr2)
    cases r with
    | ok c =>
      have hc : c ≤ B := h (Except.ok c) (List.mem_cons_self _ _) c rfl
      simp only [List.filterMap_cons, ok_count, List.sum_cons, List.length_cons]
      have hmul : (rest.length + 1) * B = rest.length * B + B := by ring
      rw [hmul]
      omega
    | error e =>
      simp only [List.filterMap_cons, ok_count, List.length_cons]
      have hmul : (rest.length + 1) * B = rest.length * B + B := by ring
      rw [hmul]
      omega

/-! ## Worker-level facts for the consistent gateway -/

theorem read_after_delete_consistent (iterations : Nat) (chunkSize : Int)
    {ctr : Nat} {s : Store} (h : fresh_ok ctr s) :
    read_after_delete consistentGW iterations chunkSize (ctr, s) =
      (Except.ok 0, (ctr + iterations, s)) :=
  probe_loop_invariant _
    (fun count ctr _ h => read_after_delete_iter_consistent chunkSize count ctr h)
    (fun _ _ h => h.succ) iterations 0 ctr s h

theorem read_after_create_consistent (iterations : Nat) (chunkSize : Int)
    {ctr : Nat} {s : Store} (h : fresh_ok ctr s) :
    read_after_create consistentGW iterations chunkSize (ctr, s) =
      (Except.ok 0, (ctr + iterations, s)) :=
  probe_loop_invariant _
    (fun count ctr _ h => read_after_create_iter_consistent chunkSize count ctr h)
    (fun _ _ h => h.succ) iterations 0 ctr s h

theorem read_after_overwrite_consistent (iterations : Nat) {chunkSize : Int}
    (hch : 0 ≤ chunkSize) {ctr : Nat} {s : Store} (h : fresh_ok ctr s) :
    read_after_overwrite consistentGW iterations chunkSize (ctr, s) =
      (Except.ok 0, (ctr + iterations, s)) :=
  probe_loop_invariant _
    (fun count ctr _ h =>
      read_after_overwrite_iter_consistent chunkSize hch count ctr h)
    (fun _ _ h => h.succ) iterations 0 ctr s h

theorem list_after_create_consistent (iterations : Nat) (chunkSize : Int)
    {ctr : Nat} {s : Store} (h : fresh_ok ctr s) :
    list_after_create consistentGW iterations chunkSize (ctr, s) =
      (Except.ok 0, (ctr + iterations, s)) :=
  probe_loop_invariant _
    (fun count ctr _ h => list_after_create_iter_consistent chunkSize count ctr h)
    (fun _ _ h => h.succ) iterations 0 ctr s h

theorem list_after_delete_consistent (iterations : Nat) (chunkSize : Int)
    {ctr : Nat} {s : Store} (h : fresh_ok ctr s) :
    list_after_delete consistentGW iterations chunkSize (ctr, s) =
      (Except.ok 0, (ctr + iterations, s)) :=
  probe_loop_invariant _
    (fun count ctr _ h => list_after_delete_iter_consistent chunkSize count ctr h)
    (fun _ _ h => h.succ) iterations 0 ctr s h

/-- Any probe whose workers all return a zero count against the consistent
gateway yields a zero `err_count` through `run_test`. -/
theorem run_test_consistent_zero
    (fn : Gateway Store → Nat → Int → HState Store →
      Except GErr Nat × HState Store)
    (iterations threads chunkSize : Int) {ctr : Nat} {s : Store}
    (hfn : ∀ (ctr : Nat) (s : Store), fresh_ok ctr s →
      fn consistentGW iterations.toNat chunkSize (ctr, s) =
        (Except.ok 0, (ctr + iterations.toNat, s)))
    (h : fresh_ok ctr s) :
    (run_test consistentGW fn iterations threads chunkSize
      (ctr, s)).1.err_count = 0 := by
  have hw := run_workers_invariant (Q := fun st => fresh_ok st.1 st.2) (B := 0)
    (fn consistentGW iterations.toNat chunkSize)
    (fun st hst => by
      obtain ⟨c2, s2⟩ := st
      rw [hfn c2 s2 hst]
      exact ⟨rfl, hst.add _⟩)
    threads.toNat (ctr, s) h
  simp [run_test, hw.1, filterMap_ok_replicate, List.sum_replicate]

/-- C1: when run against a fully consistent gateway (every get and list
reflects the immediately preceding put/delete), every one of the five probes
returns a violation count of 0, for every positive iteration count, worker
count and payload size, from any starting bucket whose keys the harness's
fresh keys avoid. -/
theorem C1_consistent_gateway_zero_violations
    (iterations threads chunkSize : Int) (ctr : Nat) (s : Store)
    (_hit : 0 < iterations) (_hth : 0 < threads) (hch : 0 < chunkSize)
    (h : fresh_ok ctr s) :
    (run_test consistentGW read_after_delete iterations threads chunkSize
      (ctr, s)).1.err_count = 0 ∧
    (run_test consistentGW read_after_create iterations threads chunkSize
      (ctr, s)).1.err_count = 0 ∧
    (run_test consistentGW read_after_overwrite iterations threads chunkSize
      (ctr, s)).1.err_count = 0 ∧
    (run_test consistentGW list_after_create iterations threads chunkSize
      (ctr, s)).1.err_count = 0 ∧
    (run_test consistentGW list_after_delete iterations threads chunkSize
      (ctr, s)).1.err_count = 0 := by
  refine ⟨?_, ?_, ?_, ?_, ?_⟩
  · exact run_test_consistent_zero _ _ _ _
      (fun ctr s h => read_after_delete_consistent _ _ h) h
  · exact run_test_consistent_zero _ _ _ _
      (fun ctr s h => read_after_create_consistent _ _ h) h
  · exact run_test_consistent_zero _ _ _ _
      (fun ctr s h => read_after_overwrite_consistent _ (by omega) h) h
  · exact run_test_consistent_zero _ _ _ _
      (fun ctr s h => list_after_create_consistent _ _ h) h
  · exact run_test_consistent_zero _ _ _ _
      (fun ctr s h => list_after_delete_consistent _ _ h) h

/-- Witness for C1: iterations 2, workers 2, payload size 1, empty bucket. -/
theorem C1_consistent_gateway_zero_violations_witness :
    (0 : Int) < 2 ∧ (0 : Int) < 2 ∧ (0 : Int) < 1 ∧ fresh_ok 0 [] ∧
    ((run_test consistentGW read_after_delete 2 2 1 (0, [])).1.err_count = 0 ∧
     (run_test consistentGW read_after_create 2 2 1 (0, [])).1.err_count = 0 ∧
     (run_test consistentGW read_after_overwrite 2 2 1 (0, [])).1.err_count = 0 ∧
     (run_test consistentGW list_after_create 2 2 1 (0, [])).1.err_count = 0 ∧
     (run_test consistentGW list_after_delete 2 2 1 (0, [])).1.err_count = 0) :=
  ⟨by norm_num, by norm_num, by norm_num, fresh_ok_nil 0,
    C1_consistent_gateway_zero_violations 2 2 1 0 [] (by norm_num) (by norm_num)
      (by norm_num) (fresh_ok_nil 0)⟩

/-! ## The `read_after_delete` probe against the stale gateway -/

theorem read_after_delete_iter_stale (chunkSize : Int) (count : Nat)
    (st : HState Store) :
    ∃ st2, read_after_delete_iter staleGW chunkSize count st =
      (Except.ok (count + 1), st2) := by
  obtain ⟨ctr, s⟩ := st
  refine ⟨(ctr + 1, storePut s (freshKey ctr) (payloadBytes chunkSize)), ?_⟩
  simp [read_after_delete_iter, create_random_file, staleGW]

theorem read_after_delete_stale (iterations : Nat) (chunkSize : Int)
    (st : HState Store) :
    ∃ st2, read_after_delete staleGW iterations chunkSize st =
      (Except.ok iterations, st2) := by
  obtain ⟨st2, h⟩ :=
    probe_loop_incr _ (read_after_delete_iter_stale chunkSize) iterations 0 st
  rw [Nat.zero_add] at h
  exact ⟨st2, h⟩

theorem run_workers_const {σ : Type} {B : Nat}
    (f : HState σ → Except GErr Nat × HState σ)
    (hf : ∀ st, ∃ st2, f st = (Except.ok B, st2)) :
    ∀ (t : Nat) (st : HState σ),
      (run_workers f t st).1 = List.replicate t (Except.ok B) := by
  intro t st
  have h := run_workers_invariant (Q := fun _ => True) (B := B) f
    (fun st _ => by
      obtain ⟨st2, h⟩ := hf st
      rw [h]
      exact ⟨rfl, trivial⟩) t st trivial
  exact h.1

/-- C6: against a gateway on which a get after a delete always succeeds with
the last-written body, `read_after_delete` counts one violation in every
iteration of every worker, so `violations = attempted = iterations * workers`,
from any starting state. -/
theorem C6_stale_read_after_delete_all_violations
    (iterations threads : Nat) (chunkSize : Int) (ctr : Nat) (s : Store) :
    (run_test staleGW read_after_delete (iterations : Int) (threads : Int)
      chunkSize (ctr, s)).1.err_count = iterations * threads ∧
    (run_test staleGW read_after_delete (iterations : Int) (threads : Int)
      chunkSize (ctr, s)).1.attempted = ((iterations * threads : Nat) : Int) := by
  have hw := run_workers_const (B := iterations)
    (read_after_delete staleGW (iterations : Int).toNat chunkSize)
    (fun st => by
      simpa using read_after_delete_stale (iterations : Int).toNat chunkSize st)
  simp only [Int.toNat_natCast] at hw
  constructor
  · simp [run_test, hw, filterMap_ok_replicate, List.sum_replicate,
      smul_eq_mul, Nat.mul_comm]
  · simp [run_test]

/-! ## Per-iteration violation bounds, for arbitrary gateway behaviour -/

theorem read_after_delete_iter_le {σ : Type} (gw : Gateway σ) (chunkSize : Int)
    (count : Nat) (st : HState σ) (c : Nat) (st2 : HState σ)
    (h : read_after_delete_iter gw chunkSize count st = (Except.ok c, st2)) :
    c ≤ count + 1 := by
  unfold read_after_delete_iter at h
  repeat' split at h
  all_goals simp_all

theorem read_after_create_iter_le {σ : Type} (gw : Gateway σ) (chunkSize : Int)
    (count : Nat) (st : HState σ) (c : Nat) (st2 : HState σ)
    (h : read_after_create_iter gw chunkSize count st = (Except.ok c, st2)) :
    c ≤ count + 1 := by
  unfold read_after_create_iter at h
  repeat' split at h
  all_goals simp_all

theorem read_after_overwrite_iter_le {σ : Type} (gw : Gateway σ)
    (chunkSize : Int) (count : Nat) (st : HState σ) (c : Nat) (st2 : HState σ)
    (h : read_after_overwrite_iter gw chunkSize count st = (Except.ok c, st2)) :
    c ≤ count + 1 := by
  unfold read_after_overwrite_iter at h
  repeat' split at h
  all_goals simp_all

theorem list_after_create_iter_le {σ : Type} (gw : Gateway σ) (chunkSize : Int)
    (count : Nat) (st : HState σ) (c : Nat) (st2 : HState σ)
    (h : list_after_create_iter gw chunkSize count st = (Except.ok c, st2)) :
    c ≤ count + 1 := by
  unfold list_after_create_iter at h
  repeat' split at h
  all_goals simp_all

theorem list_after_delete_iter_le {σ : Type} (gw : Gateway σ) (chunkSize : Int)
    (count : Nat) (st : HState σ) (c : Nat) (st2 : HState σ)
    (h : list_after_delete_iter gw chunkSize count st = (Except.ok c, st2)) :
    c ≤ count + 1 := by
  unfold list_after_delete_iter at h
  repeat' split at h
  all_goals simp_all

theorem read_after_delete_le {σ : Type} (gw : Gateway σ) (iterations : Nat)
    (chunkSize : Int) (st : HState σ) (c : Nat) (st2 : HState σ)
    (h : read_after_delete gw iterations chunkSize st = (Except.ok c, st2)) :
    c ≤ iterations := by
  have h2 : probe_loop (read_after_delete_iter gw chunkSize) iterations 0 st =
      (Except.ok c, st2) := h
  have := probe_loop_le _ (read_after_delete_iter_le gw chunkSize)
    iterations 0 st c st2 h2
  omega

theorem read_after_create_le {σ : Type} (gw : Gateway σ) (iterations : Nat)
    (chunkSize : Int) (st : HState σ) (c : Nat) (st2 : HState σ)
    (h : read_after_create gw iterations chunkSize st = (Except.ok c, st2)) :
    c ≤ iterations := by
  have h2 : probe_loop (read_after_create_iter gw chunkSize) iterations 0 st =
      (Except.ok c, st2) := h
  have := probe_loop_le _ (read_after_create_iter_le gw chunkSize)
    iterations 0 st c st2 h2
  omega

theorem read_after_overwrite_le {σ : Type} (gw : Gateway σ) (iterations : Nat)
    (chunkSize : Int) (st : HState σ) (c : Nat) (st2 : HState σ)
    (h : read_after_overwrite gw iterations chunkSize st = (Except.ok c, st2)) :
    c ≤ iterations := by
  have h2 : probe_loop (read_after_overwrite_iter gw chunkSize) iterations 0 st =
      (Except.ok c, st2) := h
  have := probe_loop_le _ (read_after_overwrite_iter_le gw chunkSize)
    iterations 0 st c st2 h2
  omega

theorem list_after_create_le {σ : Type} (gw : Gateway σ) (iterations : Nat)
    (chunkSize : Int) (st : HState σ) (c : Nat) (st2 : HState σ)
    (h : list_after_create gw iterations chunkSize st = (Except.ok c, st2)) :
    c ≤ iterations := by
  have h2 : probe_loop (list_after_create_iter gw chunkSize) iterations 0 st =
      (Except.ok c, st2) := h
  have := probe_loop_le _ (list_after_create_iter_le gw chunkSize)
    iterations 0 st c st2 h2
  omega

theorem list_after_delete_le {σ : Type} (gw : Gateway σ) (iterations : Nat)
    (chunkSize : Int) (st : HState σ) (c : Nat) (st2 : HState σ)
    (h : list_after_delete gw iterations chunkSize st = (Except.ok c, st2)) :
    c ≤ iterations := by
  have h2 : probe_loop (list_after_delete_iter gw chunkSize) iterations 0 st =
      (Except.ok c, st2) := h
  have := probe_loop_le _ (list_after_delete_iter_le gw chunkSize)
    iterations 0 st c st2 h2
  omega

/-- `run_test` never reports more violations than attempts, as soon as each
completed worker is bounded by its iteration count. -/
theorem run_test_err_le {σ : Type} (gw : Gateway σ)
    (fn : Gateway σ → Nat → Int → HState σ → Except GErr Nat × HState σ)
    (iterations threads : Nat) (chunkSize : Int) (st : HState σ)
    (hfn : ∀ st c st2, fn gw iterations chunkSize st = (Except.ok c, st2) →
      c ≤ iterations) :
    (run_test gw fn (iterations : Int) (threads : Int) chunkSize
      st).1.err_count ≤ iterations * threads := by
  have hb := run_workers_ok_le (B := iterations) (fn gw iterations chunkSize)
    hfn threads st
  have hs := sum_filterMap_ok_le _ hb
  have hl := run_workers_length (fn gw iterations chunkSize) threads st
  rw [hl, Nat.mul_comm threads iterations] at hs
  simpa only [run_test, Int.toNat_natCast] using hs

theorem run_test_attempted_natCast {σ : Type} (gw : Gateway σ)
    (fn : Gateway σ → Nat → Int → HState σ → Except GErr Nat × HState σ)
    (iterations threads : Nat) (chunkSize : Int) (st : HState σ) :
    (run_test gw fn (iterations : Int) (threads : Int) chunkSize
      st).1.attempted = ((iterations * threads : Nat) : Int) := by
  simp [run_test]

/-- C7: for every probe and every gateway behaviour, the violation count of a
completed probe run (its denominator `iterations * workers` is nonzero, so the
percentage computation completes) satisfies `violations ≤ attempted` with
`attempted = iterations * workers`; `0 ≤ violations` holds because counts are
naturals. -/
theorem C7_violations_bounded {σ : Type} (gw : Gateway σ)
    (iterations threads : Nat) (chunkSize : Int) (st : HState σ)
    (_hpos : 0 < iterations * threads) :
    ((run_test gw read_after_delete (iterations : Int) (threads : Int)
        chunkSize st).1.err_count ≤ iterations * threads ∧
      (run_test gw read_after_delete (iterations : Int) (threads : Int)
        chunkSize st).1.attempted = ((iterations * threads : Nat) : Int)) ∧
    ((run_test gw read_after_create (iterations : Int) (threads : Int)
        chunkSize st).1.err_count ≤ iterations * threads ∧
      (run_test gw read_after_create (iterations : Int) (threads : Int)
        chunkSize st).1.attempted = ((iterations * threads : Nat) : Int)) ∧
    ((run_test gw read_after_overwrite (iterations : Int) (threads : Int)
        chunkSize st).1.err_count ≤ iterations * threads ∧
      (run_test gw read_after_overwrite (iterations : Int) (threads : Int)
        chunkSize st).1.attempted = ((iterations * threads : Nat) : Int)) ∧
    ((run_test gw list_after_create (iterations : Int) (threads : Int)
        chunkSize st).1.err_count ≤ iterations * threads ∧
      (run_test gw list_after_create (iterations : Int) (threads : Int)
        chunkSize st).1.attempted = ((iterations * threads : Nat) : Int)) ∧
    ((run_test gw list_after_delete (iterations : Int) (threads : Int)
        chunkSize st).1.err_count ≤ iterations * threads ∧
      (run_test gw list_after_delete (iterations : Int) (threads : Int)
        chunkSize st).1.attempted = ((iterations * threads : Nat) : Int)) :=
  ⟨⟨run_test_err_le gw read_after_delete iterations threads chunkSize st
      (fun st c st2 h => read_after_delete_le gw iterations chunkSize st c st2 h),
    run_test_attempted_natCast gw read_after_delete iterations threads chunkSize st⟩,
   ⟨run_test_err_le gw read_after_create iterations threads chunkSize st
      (fun st c st2 h => read_after_create_le gw iterations chunkSize st c st2 h),
    run_test_attempted_natCast gw read_after_create iterations threads chunkSize st⟩,
   ⟨run_test_err_le gw read_after_overwrite iterations threads chunkSize st
      (fun st c st2 h => read_after_overwrite_le gw iterations chunkSize st c st2 h),
    run_test_attempted_natCast gw read_after_overwrite iterations threads chunkSize st⟩,
   ⟨run_test_err_le gw list_after_create iterations threads chunkSize st
      (fun st c st2 h => list_after_create_le gw iterations chunkSize st c st2 h),
    run_test_attempted_natCast gw list_after_create iterations threads chunkSize st⟩,
   ⟨run_test_err_le gw list_after_delete iterations threads chunkSize st
      (fun st c st2 h => list_after_delete_le gw iterations chunkSize st c st2 h),
    run_test_attempted_natCast gw list_after_delete iterations threads chunkSize st⟩⟩

/-- Witness for C7: the consistent gateway at iterations 1, workers 1,
payload size 1, empty bucket. -/
theorem C7_violations_bounded_witness :
    0 < 1 * 1 ∧
    (((run_test consistentGW read_after_delete (1 : Int) (1 : Int) 1
        (0, ([] : Store))).1.err_count ≤ 1 * 1 ∧
      (run_test consistentGW read_after_delete (1 : Int) (1 : Int) 1
        (0, ([] : Store))).1.attempted = ((1 * 1 : Nat) : Int)) ∧
    ((run_test consistentGW read_after_create (1 : Int) (1 : Int) 1
        (0, ([] : Store))).1.err_count ≤ 1 * 1 ∧
      (run_test consistentGW read_after_create (1 : Int) (1 : Int) 1
        (0, ([] : Store))).1.attempted = ((1 * 1 : Nat) : Int)) ∧
    ((run_test consistentGW read_after_overwrite (1 : Int) (1 : Int) 1
        (0, ([] : Store))).1.err_count ≤ 1 * 1 ∧
      (run_test consistentGW read_after_overwrite (1 : Int) (1 : Int) 1
        (0, ([] : Store))).1.attempted = ((1 * 1 : Nat) : Int)) ∧
    ((run_test consistentGW list_after_create (1 : Int) (1 : Int) 1
        (0, ([] : Store))).1.err_count ≤ 1 * 1 ∧
      (run_test consistentGW list_after_create (1 : Int) (1 : Int) 1
        (0, ([] : Store))).1.attempted = ((1 * 1 : Nat) : Int)) ∧
    ((run_test consistentGW list_after_delete (1 : Int) (1 : Int) 1
        (0, ([] : Store))).1.err_count ≤ 1 * 1 ∧
      (run_test consistentGW list_after_delete (1 : Int) (1 : Int) 1
        (0, ([] : Store))).1.attempted = ((1 * 1 : Nat) : Int))) :=
  ⟨Nat.one_pos, C7_violations_bounded consistentGW 1 1 1 (0, ([] : Store))
    Nat.one_pos⟩

/-- C3: inside every probe, a gateway failure that the probe does not catch
(anything but the expected `NoSuchKey` of the gets under `try`) makes the
iteration body return `Except.error`, and such an error propagates out of the
probe loop: the remaining iterations never run and the error result carries no
count, so the failure is never added to the violation count. -/
theorem C3_fault_aborts_probe {σ : Type} (gw : Gateway σ) (chunkSize : Int)
    (n count : Nat) (st st2 : HState σ) (e : GErr) :
    (read_after_delete_iter gw chunkSize count st = (Except.error e, st2) →
      probe_loop (read_after_delete_iter gw chunkSize) (n + 1) count st =
        (Except.error e, st2)) ∧
    (read_after_create_iter gw chunkSize count st = (Except.error e, st2) →
      probe_loop (read_after_create_iter gw chunkSize) (n + 1) count st =
        (Except.error e, st2)) ∧
    (read_after_overwrite_iter gw chunkSize count st = (Except.error e, st2) →
      probe_loop (read_after_overwrite_iter gw chunkSize) (n + 1) count st =
        (Except.error e, st2)) ∧
    (list_after_create_iter gw chunkSize count st = (Except.error e, st2) →
      probe_loop (list_after_create_iter gw chunkSize) (n + 1) count st =
        (Except.error e, st2)) ∧
    (list_after_delete_iter gw chunkSize count st = (Except.error e, st2) →
      probe_loop (list_after_delete_iter gw chunkSize) (n + 1) count st =
        (Except.error e, st2)) :=
  ⟨fun h => probe_loop_error _ n count st st2 e h,
   fun h => probe_loop_error _ n count st st2 e h,
   fun h => probe_loop_error _ n count st st2 e h,
   fun h => probe_loop_error _ n count st st2 e h,
   fun h => probe_loop_error _ n count st st2 e h⟩

/-- Witness for C3: the always-faulting gateway makes the first put raise, and
every probe's loop aborts with that fault. -/
theorem C3_fault_aborts_probe_witness :
    probe_loop (read_after_delete_iter alwaysFaultGW 1) 1 0 (0, ()) =
      (Except.error GErr.fault, (1, ())) ∧
    probe_loop (read_after_create_iter alwaysFaultGW 1) 1 0 (0, ()) =
      (Except.error GErr.fault, (1, ())) ∧
    probe_loop (read_after_overwrite_iter alwaysFaultGW 1) 1 0 (0, ()) =
      (Except.error GErr.fault, (1, ())) ∧
    probe_loop (list_after_create_iter alwaysFaultGW 1) 1 0 (0, ()) =
      (Except.error GErr.fault, (1, ())) ∧
    probe_loop (list_after_delete_iter alwaysFaultGW 1) 1 0 (0, ()) =
      (Except.error GErr.fault, (1, ())) :=
  ⟨(C3_fault_aborts_probe alwaysFaultGW 1 0 0 (0, ()) (1, ()) GErr.fault).1 rfl,
   (C3_fault_aborts_probe alwaysFaultGW 1 0 0 (0, ()) (1, ()) GErr.fault).2.1 rfl,
   (C3_fault_aborts_probe alwaysFaultGW 1 0 0 (0, ()) (1, ()) GErr.fault).2.2.1 rfl,
   (C3_fault_aborts_probe alwaysFaultGW 1 0 0 (0, ()) (1, ()) GErr.fault).2.2.2.1 rfl,
   (C3_fault_aborts_probe alwaysFaultGW 1 0 0 (0, ()) (1, ()) GErr.fault).2.2.2.2 rfl⟩

/-- C2 counterexample: `run_test` never marks a result incomplete.  Against a
gateway whose every call faults, both workers of `read_after_delete` abort
with a harness fault, yet `run_test` returns a report row identical to the
one a clean run produces on the fully consistent gateway from an empty
bucket (attempted 6, violations 0, 0 %): the fault is invisible in the
reported `ProbeResult`. -/
theorem C2_counterexample :
    (run_test alwaysFaultGW read_after_delete 3 2 1 (0, ())).1 =
      (run_test consistentGW read_after_delete 3 2 1 (0, ([] : Store))).1 ∧
    (run_workers (read_after_delete alwaysFaultGW (3 : Int).toNat 1)
        (2 : Int).toNat (0, ())).1 =
      [Except.error GErr.fault, Except.error GErr.fault] := by
  constructor
  · rfl
  · rfl

/-- C2 amended: a worker abort is silently absorbed instead of flagged: the
faulted worker's thread dies without appending to `errors`, so `run_test`
sums only the completed workers' counts, still reports
`attempted = iterations * len(threads)`, carries no incomplete marker in its
result, and the campaign always goes on to produce all five probe rows. -/
theorem C2_amended_fault_silently_dropped {σ : Type} (gw : Gateway σ)
    (fn : Gateway σ → Nat → Int → HState σ → Except GErr Nat × HState σ)
    (iterations threads chunkSize : Int) (st : HState σ)
    (rs : List (Except GErr Nat)) (s2 : HState σ)
    (h : run_workers (fn gw iterations.toNat chunkSize) threads.toNat st =
      (rs, s2)) :
    (run_test gw fn iterations threads chunkSize st).1.err_count =
      (rs.filterMap ok_count).sum ∧
    (run_test gw fn iterations threads chunkSize st).1.attempted =
      iterations * (threads.toNat : Int) ∧
    (run_campaign gw iterations threads chunkSize st).1.map Prod.fst =
      ["read_after_delete", "read_after_create", "read_after_overwrite",
       "list_after_create", "list_after_delete"] := by
  refine ⟨?_, ?_, ?_⟩
  · simp [run_test, h]
  · simp [run_test]
  · simp [run_campaign]

/-- Witness for C2's amended statement: the always-faulting gateway with
three iterations and two workers. -/
theorem C2_amended_fault_silently_dropped_witness :
    run_workers (read_after_delete alwaysFaultGW (3 : Int).toNat 1)
        (2 : Int).toNat (0, ()) =
      ([Except.error GErr.fault, Except.error GErr.fault], (2, ())) ∧
    ((run_test alwaysFaultGW read_after_delete 3 2 1 (0, ())).1.err_count =
      (([Except.error GErr.fault,
          Except.error GErr.fault]).filterMap ok_count).sum ∧
     (run_test alwaysFaultGW read_after_delete 3 2 1 (0, ())).1.attempted =
      3 * (((2 : Int)).toNat : Int) ∧
     (run_campaign alwaysFaultGW 3 2 1 (0, ())).1.map Prod.fst =
      ["read_after_delete", "read_after_create", "read_after_overwrite",
       "list_after_create", "list_after_delete"]) :=
  ⟨rfl, C2_amended_fault_silently_dropped alwaysFaultGW read_after_delete
    3 2 1 (0, ()) [Except.error GErr.fault, Except.error GErr.fault]
    (2, ()) rfl⟩

/-! ## Clean mode -/

theorem not_mem_storeKeys_erase (s : Store) (k : String) :
    k ∉ storeKeys (storeErase s k) := by
  induction s with
  | nil => simp [storeErase]
  | cons p rest ih =>
    by_cases hp : p.1 = k
    · rw [show storeErase (p :: rest) k = storeErase rest k by
        simp [storeErase, hp]]
      exact ih
    · rw [show storeErase (p :: rest) k = p :: storeErase rest k by
        simp [storeErase, hp]]
      simp only [storeKeys_cons, List.mem_cons]
      push_neg
      exact ⟨fun hk => hp hk.symm, ih⟩

/-- Deleting every key of a listing that covers the bucket empties it, with
one delete call per listed key. -/
theorem delete_all_consistent :
    ∀ (keys : List String) (s : Store), (∀ a ∈ storeKeys s, a ∈ keys) →
      delete_all consistentGW keys s = (Except.ok keys.length, []) := by
  intro keys
  induction keys with
  | nil =>
    intro s hs
    have hnil : s = [] := by
      cases s with
      | nil => rfl
      | cons p rest => exact absurd (hs p.1 (by simp)) (by simp)
    subst hnil
    rfl
  | cons k rest ih =>
    intro s hs
    have hsub : ∀ a ∈ storeKeys (storeErase s k), a ∈ rest := by
      intro a ha
      rcases List.mem_cons.mp (hs a (mem_storeKeys_of_mem_erase ha)) with h | h
      · subst h
        exact absurd ha (not_mem_storeKeys_erase s a)
      · exact h
    have hdel : consistentGW.delete_object s k = (Except.ok (), storeErase s k) :=
      rfl
    simp only [delete_all, hdel, ih (storeErase s k) hsub]
    simp

theorem clean_up_consistent (s : Store) :
    clean_up consistentGW s = (Except.ok (storeKeys s).length, []) := by
  have hlist : consistentGW.list_objects_v2 s = (Except.ok (storeKeys s), s) :=
    rfl
  simp only [clean_up, hlist]
  exact delete_all_consistent (storeKeys s) s (fun a ha => ha)

/-- C8: clean mode is idempotent: from any starting bucket contents one run
leaves the bucket empty, and an immediately following run issues zero deletes
and leaves it empty again. -/
theorem C8_clean_idempotent (s : Store) :
    (clean_up consistentGW s).2 = [] ∧
    clean_up consistentGW (clean_up consistentGW s).2 = (Except.ok 0, []) := by
  constructor
  · simp [clean_up_consistent]
  · simp [clean_up_consistent]

/-! ## Chunk-size clamping -/

/-- C9: a configured payload size above the 5 GiB ceiling is clamped to
exactly 5 GiB, and the campaign proceeds with the clamped size instead of the
configuration being rejected. -/
theorem C9_chunk_size_clamped {σ : Type} (gw : Gateway σ)
    (iterations threads c : Int) (st : HState σ)
    (hc : max_chunk_size < c) :
    clamp_chunk_size c = max_chunk_size ∧
    main_run gw { iterations := iterations, threads := threads,
                  chunkSize := c, clean := false } st =
      (Except.ok (some
          (run_campaign gw iterations threads max_chunk_size st).1),
        (run_campaign gw iterations threads max_chunk_size st).2) := by
  have h1 : clamp_chunk_size c = max_chunk_size := by
    simp [clamp_chunk_size, hc]
  exact ⟨h1, by simp [main_run, h1]⟩

/-- Witness for C9: one byte above the ceiling. -/
theorem C9_chunk_size_clamped_witness :
    max_chunk_size < max_chunk_size + 1 ∧
    (clamp_chunk_size (max_chunk_size + 1) = max_chunk_size ∧
     main_run consistentGW { iterations := 1, threads := 1,
                             chunkSize := max_chunk_size + 1,
                             clean := false } (0, ([] : Store)) =
       (Except.ok (some
           (run_campaign consistentGW 1 1 max_chunk_size (0, ([] : Store))).1),
         (run_campaign consistentGW 1 1 max_chunk_size
           (0, ([] : Store))).2)) :=
  ⟨by norm_num, C9_chunk_size_clamped consistentGW 1 1 (max_chunk_size + 1)
    (0, ([] : Store)) (by norm_num)⟩

/-! ## Exact aggregation -/

theorem filterMap_ok_map (counts : List Nat) :
    (counts.map Except.ok).filterMap ok_count = counts := by
  induction counts with
  | nil => rfl
  | cons c rest ih => simp [ok_count, ih]

theorem ok_count_comp_ok :
    (ok_count ∘ (Except.ok : Nat → Except GErr Nat)) = some := rfl

/-- C5: for a probe run in which every worker completes (each worker result is
`Except.ok` of its count), `run_test` reports exactly
`attempted = iterations * workers`, `violations` equal to the sum of the
per-worker counts, and a percentage of `violations / attempted * 100`. -/
theorem C5_aggregates_exact {σ : Type} (gw : Gateway σ)
    (fn : Gateway σ → Nat → Int → HState σ → Except GErr Nat × HState σ)
    (iterations threads : Nat) (chunkSize : Int) (st : HState σ)
    (counts : List Nat) (s2 : HState σ)
    (hw : run_workers (fn gw iterations chunkSize) threads st =
      (counts.map Except.ok, s2)) :
    (run_test gw fn (iterations : Int) (threads : Int) chunkSize
        st).1.attempted = ((iterations * threads : Nat) : Int) ∧
    (run_test gw fn (iterations : Int) (threads : Int) chunkSize
        st).1.err_count = counts.sum ∧
    (run_test gw fn (iterations : Int) (threads : Int) chunkSize
        st).1.err_pct =
      ((counts.sum : ℚ) / ((iterations * threads : Nat) : ℚ)) * 100 := by
  refine ⟨?_, ?_, ?_⟩
  · simp [run_test]
  · simp [run_test, hw, ok_count_comp_ok]
  · simp [run_test, hw, ok_count_comp_ok]

/-- Witness for C5: one worker, one iteration against the consistent gateway;
the single worker completes with count 0. -/
theorem C5_aggregates_exact_witness :
    run_workers (read_after_delete consistentGW 1 1) 1 (0, ([] : Store)) =
      (([0] : List Nat).map Except.ok, (1, ([] : Store))) ∧
    ((run_test consistentGW read_after_delete (1 : Int) (1 : Int) 1
        (0, ([] : Store))).1.attempted = ((1 * 1 : Nat) : Int) ∧
     (run_test consistentGW read_after_delete (1 : Int) (1 : Int) 1
        (0, ([] : Store))).1.err_count = ([0] : List Nat).sum ∧
     (run_test consistentGW read_after_delete (1 : Int) (1 : Int) 1
        (0, ([] : Store))).1.err_pct =
      ((([0] : List Nat).sum : ℚ) / ((1 * 1 : Nat) : ℚ)) * 100) :=
  ⟨rfl, C5_aggregates_exact consistentGW read_after_delete 1 1 1
    (0, ([] : Store)) [0] (1, ([] : Store)) rfl⟩

/-! ## Missing CLI validation -/

theorem run_workers_id {σ : Type}
    (f : HState σ → Except GErr Nat × HState σ)
    (hf : ∀ st, f st = (Except.ok 0, st)) :
    ∀ (t : Nat) (st : HState σ),
      run_workers f t st = (List.replicate t (Except.ok 0), st) := by
  intro t
  induction t with
  | zero => intro st; simp [run_workers]
  | succ t ih => intro st; simp [run_workers, List.replicate_succ, hf, ih]

/-- `run_test` with an empty iteration range (`range(iterations)` is empty
for `iterations ≤ 0`): every worker returns count 0 without touching the
gateway, and the report keeps the raw `iterations * len(threads)`. -/
theorem run_test_zero_iterations {σ : Type} (gw : Gateway σ)
    (fn : Gateway σ → Nat → Int → HState σ → Except GErr Nat × HState σ)
    (iterations threads chunkSize : Int) (st : HState σ)
    (h0 : iterations.toNat = 0)
    (hfn : ∀ st, fn gw 0 chunkSize st = (Except.ok 0, st)) :
    run_test gw fn iterations threads chunkSize st =
      ({ attempted := iterations * (threads.toNat : Int), err_count := 0,
         err_pct := 0 }, st) := by
  have hw := run_workers_id (fn gw 0 chunkSize) hfn threads.toNat st
  simp [run_test, h0, hw, filterMap_ok_replicate, List.sum_replicate]

/-- C4 counterexample: the CLI performs no validation of a non-positive
iteration count: configured with `--iterations -3 --threads 5`, `main` does
not reject; it runs the whole campaign and reports all five probe rows
(attempted -15, 0 violations each), exiting as a successful run. -/
theorem C4_counterexample :
    main_run consistentGW
        { iterations := -3, threads := 5, chunkSize := 1, clean := false }
        (0, ([] : Store)) =
      (Except.ok (some
        [("read_after_delete",
          { attempted := -15, err_count := 0, err_pct := 0 }),
         ("read_after_create",
          { attempted := -15, err_count := 0, err_pct := 0 }),
         ("read_after_overwrite",
          { attempted := -15, err_count := 0, err_pct := 0 }),
         ("list_after_create",
          { attempted := -15, err_count := 0, err_pct := 0 }),
         ("list_after_delete",
          { attempted := -15, err_count := 0, err_pct := 0 })]),
        (0, ([] : Store))) := by
  have h0 : (-3 : Int).toNat = 0 := rfl
  have h1 := run_test_zero_iterations consistentGW read_after_delete (-3) 5
    (clamp_chunk_size 1) (0, ([] : Store)) h0 (fun st => rfl)
  have h2 := run_test_zero_iterations consistentGW read_after_create (-3) 5
    (clamp_chunk_size 1) (0, ([] : Store)) h0 (fun st => rfl)
  have h3 := run_test_zero_iterations consistentGW read_after_overwrite (-3) 5
    (clamp_chunk_size 1) (0, ([] : Store)) h0 (fun st => rfl)
  have h4 := run_test_zero_iterations consistentGW list_after_create (-3) 5
    (clamp_chunk_size 1) (0, ([] : Store)) h0 (fun st => rfl)
  have h5 := run_test_zero_iterations consistentGW list_after_delete (-3) 5
    (clamp_chunk_size 1) (0, ([] : Store)) h0 (fun st => rfl)
  simp [main_run, run_campaign, h1, h2, h3, h4, h5]

/-- C4 amended: `main` never validates the iteration or worker counts; a
campaign with a negative iteration count and a positive worker count is not
rejected before the probes start — instead all five probes run with an empty
iteration range, the campaign reports five rows with
`attempted = iterations * len(threads)` and zero violations, and the run
terminates as a success.  (With `iterations * len(threads) = 0` the
percentage division raises instead, again after the first probe has started,
not as an upfront rejection; the positive worker count keeps the denominator
nonzero, the region this model covers.) -/
theorem C4_amended_no_validation {σ : Type} (gw : Gateway σ)
    (iterations threads chunkSize : Int) (st : HState σ)
    (hit : iterations < 0) (_hth : 0 < threads) :
    main_run gw { iterations := iterations, threads := threads,
                  chunkSize := chunkSize, clean := false } st =
      (Except.ok (some
        [("read_after_delete",
          { attempted := iterations * (threads.toNat : Int), err_count := 0,
            err_pct := 0 }),
         ("read_after_create",
          { attempted := iterations * (threads.toNat : Int), err_count := 0,
            err_pct := 0 }),
         ("read_after_overwrite",
          { attempted := iterations * (threads.toNat : Int), err_count := 0,
            err_pct := 0 }),
         ("list_after_create",
          { attempted := iterations * (threads.toNat : Int), err_count := 0,
            err_pct := 0 }),
         ("list_after_delete",
          { attempted := iterations * (threads.toNat : Int), err_count := 0,
            err_pct := 0 })]), st) := by
  have h0 : iterations.toNat = 0 := Int.toNat_eq_zero.mpr (le_of_lt hit)
  have h1 := run_test_zero_iterations gw read_after_delete iterations threads
    (clamp_chunk_size chunkSize) st h0 (fun st => rfl)
  have h2 := run_test_zero_iterations gw read_after_create iterations threads
    (clamp_chunk_size chunkSize) st h0 (fun st => rfl)
  have h3 := run_test_zero_iterations gw read_after_overwrite iterations threads
    (clamp_chunk_size chunkSize) st h0 (fun st => rfl)
  have h4 := run_test_zero_iterations gw list_after_create iterations threads
    (clamp_chunk_size chunkSize) st h0 (fun st => rfl)
  have h5 := run_test_zero_iterations gw list_after_delete iterations threads
    (clamp_chunk_size chunkSize) st h0 (fun st => rfl)
  simp [main_run, run_campaign, h1, h2, h3, h4, h5]

/-- Witness for C4's amended statement at `--iterations -3 --threads 5`. -/
theorem C4_amended_no_validation_witness :
    (-3 : Int) < 0 ∧ (0 : Int) < 5 ∧
    main_run alwaysFaultGW { iterations := -3, threads := 5, chunkSize := 1,
                             clean := false } (0, ()) =
      (Except.ok (some
        [("read_after_delete",
          { attempted := -3 * (((5 : Int)).toNat : Int), err_count := 0,
            err_pct := 0 }),
         ("read_after_create",
          { attempted := -3 * (((5 : Int)).toNat : Int), err_count := 0,
            err_pct := 0 }),
         ("read_after_overwrite",
          { attempted := -3 * (((5 : Int)).toNat : Int), err_count := 0,
            err_pct := 0 }),
         ("list_after_create",
          { attempted := -3 * (((5 : Int)).toNat : Int), err_count := 0,
            err_pct := 0 }),
         ("list_after_delete",
          { attempted := -3 * (((5 : Int)).toNat : Int), err_count := 0,
            err_pct := 0 })]), (0, ())) :=
  ⟨by norm_num, by norm_num, C4_amended_no_validation alwaysFaultGW (-3) 5 1
    (0, ()) (by norm_num) (by norm_num)⟩

/-! ## Frame property of `read_after_delete` iterations -/

/-- Whether a recorded call mutates by deletion. -/
def isDeleteOp : Op → Bool
  | Op.deleteOp _ => true
  | _ => false

/-- C10: a completed `read_after_delete` iteration issues exactly the calls
put, delete, get on its fresh key, in that order — one single delete, and no
further call after the verifying get.  In particular, when the violation
condition fires (the get succeeds), no additional cleanup delete is
attempted, so the key's storage state after the in-sequence delete is never
modified again by that iteration, whatever the verdict. -/
theorem C10_read_after_delete_frame {σ : Type} (gw : Gateway σ)
    (chunkSize : Int) (count ctr : Nat) (tr : List Op) (s : σ)
    (c ctr2 : Nat) (tr2 : List Op) (s2 : σ)
    (h : read_after_delete_iter (traced gw) chunkSize count (ctr, (tr, s)) =
      (Except.ok c, (ctr2, (tr2, s2)))) :
    tr2 = tr ++ [Op.putOp (freshKey ctr) (payloadBytes chunkSize).length,
      Op.deleteOp (freshKey ctr), Op.getOp (freshKey ctr)] ∧
    (tr2.drop tr.length).countP (fun op => isDeleteOp op) = 1 := by
  have htr : tr2 = tr ++
      [Op.putOp (freshKey ctr) (payloadBytes chunkSize).length,
       Op.deleteOp (freshKey ctr), Op.getOp (freshKey ctr)] := by
    simp only [read_after_delete_iter, create_random_file, traced] at h
    rcases hput : gw.put_object s (freshKey ctr) (payloadBytes chunkSize)
      with ⟨rput, sput⟩
    rw [hput] at h
    dsimp only at h
    rcases rput with e | u
    · simp at h
    · dsimp only at h
      rcases hdel : gw.delete_object sput (freshKey ctr) with ⟨rdel, sdel⟩
      rw [hdel] at h
      dsimp only at h
      rcases rdel with e | u2
      · simp at h
      · dsimp only at h
        rcases hget : gw.get_object sdel (freshKey ctr) with ⟨rget, sget⟩
        rw [hget] at h
        dsimp only at h
        rcases rget with e | body
        · rcases e with _ | _
          · simp only [Prod.mk.injEq, Except.ok.injEq] at h
            simp_all [List.append_assoc]
          · simp at h
        · simp only [Prod.mk.injEq, Except.ok.injEq] at h
          simp_all [List.append_assoc]
  refine ⟨htr, ?_⟩
  rw [htr, List.drop_left]
  simp [List.countP_cons, isDeleteOp]

/-- Witness for C10: the traced consistent gateway from an empty bucket. -/
theorem C10_read_after_delete_frame_witness :
    read_after_delete_iter (traced consistentGW) 1 0 (0, ([], ([] : Store))) =
      (Except.ok 0, (1, ([Op.putOp (freshKey 0) (payloadBytes 1).length,
        Op.deleteOp (freshKey 0), Op.getOp (freshKey 0)], ([] : Store)))) ∧
    ([Op.putOp (freshKey 0) (payloadBytes 1).length,
        Op.deleteOp (freshKey 0), Op.getOp (freshKey 0)] =
      ([] : List Op) ++ [Op.putOp (freshKey 0) (payloadBytes 1).length,
        Op.deleteOp (freshKey 0), Op.getOp (freshKey 0)] ∧
     (([Op.putOp (freshKey 0) (payloadBytes 1).length,
         Op.deleteOp (freshKey 0), Op.getOp (freshKey 0)]).drop
        ([] : List Op).length).countP (fun op => isDeleteOp op) = 1) :=
  ⟨rfl, C10_read_after_delete_frame consistentGW 1 0 0 [] [] 0 1
    [Op.putOp (freshKey 0) (payloadBytes 1).length,
     Op.deleteOp (freshKey 0), Op.getOp (freshKey 0)] [] rfl⟩

end S3Consistency
